import Mathlib

/-!
Verification development for the snagly price-tracking backend.

The Go sources are embedded shallowly: floating-point prices become exact
rationals (`ℚ`), Go strings become `List Char`, database rows become plain
structures, and handler bodies with side effects become pure functions that
return the state they would write together with a record of which writes
happened. Every definition mirrors a specific function of the repository,
named after it where possible.
-/

/-! ## String helpers (Go `strings` package operations used by the code) -/

/-- Does the first list occur as a prefix of the second?  Character-exact. -/
def isPre : List Char → List Char → Bool
  | [], _ => true
  | _ :: _, [] => false
  | a :: as, b :: bs => a == b && isPre as bs

/-- Substring test, mirroring Go's `strings.Contains(hay, needle)`. -/
def hasSub : List Char → List Char → Bool
  | [], needle => needle.isEmpty
  | c :: rest, needle => isPre needle (c :: rest) || hasSub rest needle

/-- ASCII lower-casing of one character (`strings.ToLower` on the inputs used
here, which are ASCII). -/
def lowerChar (c : Char) : Char :=
  if 'A' ≤ c && c ≤ 'Z' then Char.ofNat (c.toNat + 32) else c

/-- ASCII lower-casing of a string, mirroring Go's `strings.ToLower`. -/
def lowerStr (s : List Char) : List Char := s.map lowerChar

/-! ## models.go — TrackedURL, plausibility thresholds, retry schedule -/

/-- Embedding of `models.TrackedURL` (the fields the claims touch).
`currentPrice = none` models a NULL `sql.NullFloat64`; times are rational
minute stamps. -/
structure TrackedURL where
  name : List Char
  currentPrice : Option ℚ
  lastFailedAt : Option ℚ
  retryCount : ℤ
  nextRetryAt : Option ℚ
deriving DecidableEq

/-- Embedding of `models.PriceChangeThresholds`. -/
structure PriceChangeThresholds where
  minDrop : ℚ
  maxIncrease : ℚ
deriving DecidableEq

/-- Keyword list of `models.go` `isLuxuryProduct`. -/
def luxuryKeywords : List (List Char) :=
  ["chloe".data, "louis vuitton".data, "gucci".data, "hermes".data, "chanel".data,
   "prada".data, "fendi".data, "balenciaga".data, "dior".data, "celine".data,
   "givenchy".data, "saint laurent".data, "valentino".data, "bottega".data,
   "moynat".data, "goyard".data, "delvaux".data, "mansur gavriel".data,
   "strathberry".data, "aspinal".data, "mulberry".data, "leather".data,
   "premium".data, "luxury".data, "designer".data, "handbag".data, "bag".data,
   "purse".data, "tote".data, "wallet".data, "clutch".data, "crossbody".data,
   "shoulder bag".data, "backpack".data, "duffle".data]

/-- Keyword list of `models.go` `isElectronicsProduct`. -/
def electronicsKeywords : List (List Char) :=
  ["phone".data, "smartphone".data, "laptop".data, "computer".data, "tablet".data,
   "ipad".data, "iphone".data, "samsung".data, "macbook".data, "dell".data,
   "hp".data, "lenovo".data, "asus".data, "acer".data, "msi".data, "gaming".data,
   "console".data, "playstation".data, "xbox".data, "nintendo".data, "switch".data,
   "headphones".data, "earbuds".data, "airpods".data, "camera".data, "canon".data,
   "nikon".data, "sony".data, "gopro".data, "drone".data, "tv".data,
   "television".data, "monitor".data, "keyboard".data, "mouse".data,
   "speaker".data, "bluetooth".data, "wireless".data, "charger".data, "cable".data]

/-- Keyword list of `models.go` `isFashionProduct`. -/
def fashionKeywords : List (List Char) :=
  ["shirt".data, "t-shirt".data, "pants".data, "jeans".data, "dress".data,
   "skirt".data, "jacket".data, "coat".data, "sweater".data, "sweatshirt".data,
   "hoodie".data, "blazer".data, "suit".data, "tie".data, "scarf".data,
   "hat".data, "cap".data, "shoes".data, "sneakers".data, "boots".data,
   "sandals".data, "heels".data, "flats".data, "jewelry".data, "watch".data,
   "ring".data, "necklace".data, "bracelet".data, "earrings".data,
   "sunglasses".data, "belt".data, "wallet".data, "socks".data, "underwear".data,
   "lingerie".data, "swimwear".data, "activewear".data, "athletic".data,
   "sportswear".data]

/-- `models.go` `isLuxuryProduct` (argument is the already lower-cased name). -/
def isLuxuryProduct (productName : List Char) : Bool :=
  luxuryKeywords.any fun k => hasSub productName k

/-- `models.go` `isElectronicsProduct`. -/
def isElectronicsProduct (productName : List Char) : Bool :=
  electronicsKeywords.any fun k => hasSub productName k

/-- `models.go` `isFashionProduct`. -/
def isFashionProduct (productName : List Char) : Bool :=
  fashionKeywords.any fun k => hasSub productName k

/-- `models.go` `getPriceChangeThresholds`: category-specific
`[minDrop, maxIncrease]` windows keyed off the lower-cased product name. -/
def getPriceChangeThresholds (t : TrackedURL) : PriceChangeThresholds :=
  let productName := lowerStr t.name
  if isLuxuryProduct productName then ⟨-80, 200⟩
  else if isElectronicsProduct productName then ⟨-60, 100⟩
  else if isFashionProduct productName then ⟨-70, 150⟩
  else ⟨-50, 100⟩

/-- `models.go` `IsPriceChangeRealistic`: the plausibility gate on a newly
extracted price against the target's last stored price. -/
def isPriceChangeRealistic (t : TrackedURL) (newPrice : ℚ) : Bool :=
  match t.currentPrice with
  | none => true
  | some oldPrice =>
    if oldPrice ≤ 0 then true
    else
      let priceChange := (newPrice - oldPrice) / oldPrice * 100
      let th := getPriceChangeThresholds t
      decide (th.minDrop ≤ priceChange) && decide (priceChange ≤ th.maxIncrease)

/-- `models.go` `GetRetryDelay`: the escalating retry-delay table, in minutes
(10m, 30m, 1h, 3h, 6h, then a 24h ceiling), keyed on the current retry count. -/
def getRetryDelay (t : TrackedURL) : ℚ :=
  if t.retryCount = 0 then 10
  else if t.retryCount = 1 then 30
  else if t.retryCount = 2 then 60
  else if t.retryCount = 3 then 180
  else if t.retryCount = 4 then 360
  else 1440

/-! ## repository/api_key_repository.go — retry-state writes -/

/-- `URLRepository.MarkPriceCheckFailed`: the UPDATE sets
`last_failed_at = now`, `retry_count = retry_count + 1`, and
`next_retry_at = now + 10 minutes` — the 10-minute delay is a literal in the
query and does not consult the retry count. -/
def markPriceCheckFailed (t : TrackedURL) (now : ℚ) : TrackedURL :=
  { t with lastFailedAt := some now, retryCount := t.retryCount + 1,
           nextRetryAt := some (now + 10) }

/-- `URLRepository.MarkPriceCheckSuccess`: clears the retry state. -/
def markPriceCheckSuccess (t : TrackedURL) : TrackedURL :=
  { t with lastFailedAt := none, retryCount := 0, nextRetryAt := none }

/-! ## Check paths: which writes happen on a completed extraction

`CheckPriceNow` (handlers) and `checkURLPrice` (scheduler) both run an
extraction and then decide what to persist.  The effect records below state,
for each path, which writes the Go code performs; `scraped = none` models a
failed extraction, `some p` a successful one returning price `p`. -/

/-- Record of the externally visible writes of one check. -/
structure CheckEffects where
  markedFailed : Bool
  markedSuccess : Bool
  priceUpdated : Bool
  historyWritten : Bool
  alertsEvaluated : Bool
deriving DecidableEq

/-- The on-demand path, `Handlers.CheckPriceNow`: on a successful scrape it
calls `MarkPriceCheckSuccess`, `UpdateURLPrice` and `AddPriceHistory`
unconditionally, computes `IsPriceChangeRealistic` afterwards, and gates only
the alert evaluation on it. -/
def checkPriceNowEffects (url : TrackedURL) (scraped : Option ℚ) : CheckEffects :=
  match scraped with
  | none =>
      { markedFailed := true, markedSuccess := false, priceUpdated := false,
        historyWritten := false, alertsEvaluated := false }
  | some newPrice =>
      let realistic := isPriceChangeRealistic url newPrice
      { markedFailed := false, markedSuccess := true, priceUpdated := true,
        historyWritten := true, alertsEvaluated := realistic }

/-- The scheduled path, `PriceChecker.checkURLPrice`: computes
`IsPriceChangeRealistic` first and performs the price update, the history
write and the alert evaluation only when the change is realistic.  This path
never touches the retry columns. -/
def checkURLPriceEffects (url : TrackedURL) (scraped : Option ℚ) : CheckEffects :=
  match scraped with
  | none =>
      { markedFailed := false, markedSuccess := false, priceUpdated := false,
        historyWritten := false, alertsEvaluated := false }
  | some newPrice =>
      let realistic := isPriceChangeRealistic url newPrice
      { markedFailed := false, markedSuccess := false, priceUpdated := realistic,
        historyWritten := realistic, alertsEvaluated := realistic }

/-- A target in the default plausibility category whose last stored price is
$100 (spec scenario 5). -/
def gateTarget : TrackedURL :=
  { name := "product".data, currentPrice := some 100, lastFailedAt := none,
    retryCount := 0, nextRetryAt := none }

/-- The gate target falls in the default plausibility category. -/
theorem gateTarget_thresholds : getPriceChangeThresholds gateTarget = ⟨-50, 100⟩ := by
  have h1 : isLuxuryProduct (lowerStr gateTarget.name) = false := by decide
  have h2 : isElectronicsProduct (lowerStr gateTarget.name) = false := by decide
  have h3 : isFashionProduct (lowerStr gateTarget.name) = false := by decide
  simp [getPriceChangeThresholds, h1, h2, h3]

/-- A new price of $1.00 against a stored $100.00 is a −99% change, below
the default category's −50% floor, hence implausible. -/
theorem gateTarget_unrealistic : isPriceChangeRealistic gateTarget 1 = false := by
  have hcp : gateTarget.currentPrice = some 100 := rfl
  simp only [isPriceChangeRealistic, hcp, gateTarget_thresholds]
  norm_num [Bool.and_eq_false_iff, decide_eq_false_iff_not]

/-- C1: an extraction of $1.00 against a last price of $100.00 (default
category, −99% < minDrop −50%) is implausible, and on the scheduled path no
history row is written and no alerts are evaluated — but on the on-demand
`CheckPriceNow` path the history row (and the price update) happen
unconditionally before the gate, which only suppresses alert evaluation.
This evaluates both paths at that failing input. -/
theorem checkPriceNow_history_written_despite_gate_failure :
    isPriceChangeRealistic gateTarget 1 = false ∧
    (checkURLPriceEffects gateTarget (some 1)).historyWritten = false ∧
    (checkURLPriceEffects gateTarget (some 1)).alertsEvaluated = false ∧
    (checkPriceNowEffects gateTarget (some 1)).historyWritten = true ∧
    (checkPriceNowEffects gateTarget (some 1)).alertsEvaluated = false := by
  refine ⟨gateTarget_unrealistic, ?_, ?_, ?_, ?_⟩ <;>
    simp [checkURLPriceEffects, checkPriceNowEffects, gateTarget_unrealistic]

/-- The C2 failing input: a target that has already failed once. -/
def retryTarget : TrackedURL := { gateTarget with retryCount := 1 }

/-- C2: after a failure of a target whose retry count is already 1, the
repository schedules `next_retry_at = now + 10` minutes (a constant written
into the UPDATE), while the escalating table `GetRetryDelay` — which the
handler uses for the user-facing retry message — gives 30 minutes for retry
count 1.  The stored schedule therefore diverges from
`lastFailedAt + delay(retryCount)`. -/
theorem markPriceCheckFailed_uses_constant_delay :
    (markPriceCheckFailed retryTarget 0).nextRetryAt = some 10 ∧
    (markPriceCheckFailed retryTarget 0).lastFailedAt = some 0 ∧
    getRetryDelay retryTarget = 30 ∧
    (10 : ℚ) ≠ 30 := by
  refine ⟨?_, ?_, ?_, by norm_num⟩ <;>
    norm_num [markPriceCheckFailed, getRetryDelay, retryTarget, gateTarget]

/-! ## Hybrid scraper arbitration (hybrid_price_scraper, quoted in
docs/api_documentation.md) — pricesMatch, isAmazonDomain,
determineFinalResult, and the timing of extractAndMatchPrices -/

/-- Embedding of `models.PriceData` (the arbitration outcome payload). -/
structure PriceData where
  CurrentPrice : ℚ
  OriginalPrice : ℚ
  Currency : String
  Source : String
  ExtractionMethod : String
  Confidence : ℚ
deriving DecidableEq

/-- Embedding of `PriceMatchResult` (the fields `determineFinalResult`
reads; the output fields `FinalPrice`/`Method`/`Reasons` are returned through
`PriceData` here). -/
structure PriceMatchResult where
  NetworkPrice : ℚ
  NetworkSuccess : Bool
  NetworkSource : String
  NetworkConfidence : ℚ
  OCRPrice : ℚ
  OCRSuccess : Bool
  OCRConfidence : ℚ
  PricesMatch : Bool
deriving DecidableEq

/-- `HybridPriceScraper.pricesMatch`: percentage difference relative to the
average, tolerance 5 unless the average exceeds 100, then 3. -/
def pricesMatch (price1 price2 : ℚ) : Bool :=
  if price1 ≤ 0 ∨ price2 ≤ 0 then false
  else
    let diff := |price1 - price2|
    let avgPrice := (price1 + price2) / 2
    let percentageDiff := diff / avgPrice * 100
    let threshold : ℚ := if avgPrice > 100 then 3 else 5
    decide (percentageDiff ≤ threshold)

/-- `HybridPriceScraper.isAmazonDomain`. -/
def isAmazonDomain (url : List Char) : Bool :=
  hasSub (lowerStr url) "amazon.com".data ||
  hasSub (lowerStr url) "amazon.".data ||
  hasSub (lowerStr url) "amazon".data

/-- `HybridPriceScraper.determineFinalResult`: the decision ladder, in source
order.  The two guards of the Amazon block are flattened with an explicit
`isAmazonDomain` conjunct; when neither fires, control falls through to the
non-Amazon ladder exactly as in the Go code.  `none` models the terminal
"both methods failed" error return. -/
def determineFinalResult (m : PriceMatchResult) (url : List Char) : Option PriceData :=
  let isAmazon := isAmazonDomain url
  if isAmazon = true ∧ m.NetworkSuccess = true ∧ m.NetworkConfidence > 0.5 then
    some { CurrentPrice := m.NetworkPrice, OriginalPrice := m.NetworkPrice,
           Currency := "USD", Source := "network_amazon",
           ExtractionMethod := "network_primary_amazon",
           Confidence := m.NetworkConfidence }
  else if isAmazon = true ∧ m.NetworkSuccess = false ∧ m.OCRSuccess = true then
    some { CurrentPrice := m.OCRPrice, OriginalPrice := m.OCRPrice,
           Currency := "USD", Source := "yolo_ocr_amazon_fallback",
           ExtractionMethod := "ocr_fallback_amazon",
           Confidence := m.OCRConfidence }
  else if m.OCRSuccess = true ∧ m.OCRConfidence > 0.7 then
    some { CurrentPrice := m.OCRPrice, OriginalPrice := m.OCRPrice,
           Currency := "USD", Source := "yolo_ocr",
           ExtractionMethod := "yolo_ocr_primary",
           Confidence := m.OCRConfidence }
  else if m.NetworkSuccess = true ∧ m.OCRSuccess = true ∧ m.PricesMatch = true then
    if isAmazon = true then
      some { CurrentPrice := m.NetworkPrice, OriginalPrice := m.NetworkPrice,
             Currency := "USD", Source := "network_amazon_hybrid",
             ExtractionMethod := "hybrid_match_network_priority_amazon",
             Confidence := m.NetworkConfidence }
    else
      some { CurrentPrice := m.OCRPrice, OriginalPrice := m.OCRPrice,
             Currency := "USD", Source := "yolo_ocr_hybrid",
             ExtractionMethod := "hybrid_match_yolo_priority",
             Confidence := m.OCRConfidence }
  else if m.NetworkSuccess = false ∧ m.OCRSuccess = true then
    some { CurrentPrice := m.OCRPrice, OriginalPrice := m.OCRPrice,
           Currency := "USD", Source := "ocr",
           ExtractionMethod := "ocr_fallback",
           Confidence := m.OCRConfidence }
  else if m.NetworkSuccess = true ∧ m.OCRSuccess = false then
    some { CurrentPrice := m.NetworkPrice, OriginalPrice := m.NetworkPrice,
           Currency := "USD", Source := m.NetworkSource,
           ExtractionMethod := "network_fallback",
           Confidence := m.NetworkConfidence }
  else if m.NetworkSuccess = true ∧ m.OCRSuccess = true ∧ m.PricesMatch = false then
    if isAmazon = true then
      if m.OCRConfidence > m.NetworkConfidence + 0.15 then
        some { CurrentPrice := m.OCRPrice, OriginalPrice := m.OCRPrice,
               Currency := "USD", Source := "yolo_ocr_amazon",
               ExtractionMethod := "yolo_ocr_priority_amazon_high_confidence",
               Confidence := m.OCRConfidence }
      else
        some { CurrentPrice := m.NetworkPrice, OriginalPrice := m.NetworkPrice,
               Currency := "USD", Source := "network_amazon",
               ExtractionMethod := "network_priority_amazon_default",
               Confidence := m.NetworkConfidence }
    else
      if m.OCRConfidence > m.NetworkConfidence + 0.05 then
        some { CurrentPrice := m.OCRPrice, OriginalPrice := m.OCRPrice,
               Currency := "USD", Source := "yolo_ocr",
               ExtractionMethod := "yolo_ocr_priority_confidence",
               Confidence := m.OCRConfidence }
      else if m.NetworkConfidence > m.OCRConfidence + 0.1 then
        some { CurrentPrice := m.NetworkPrice, OriginalPrice := m.NetworkPrice,
               Currency := "USD", Source := m.NetworkSource,
               ExtractionMethod := "network_priority_confidence",
               Confidence := m.NetworkConfidence }
      else
        some { CurrentPrice := m.OCRPrice, OriginalPrice := m.OCRPrice,
               Currency := "USD", Source := "yolo_ocr",
               ExtractionMethod := "yolo_ocr_priority_default",
               Confidence := m.OCRConfidence }
  else
    none

/-- Timing skeleton of `extractAndMatchPrices`: the YOLO+OCR goroutine is
started first and the function blocks on `select { <-ocrDone; <-time.After(30s) }`
before it starts the network goroutine and blocks on
`select { <-networkDone; <-time.After(20s) }`.  Given the two branch
durations (in seconds), this returns (instant at which the network branch
starts, instant at which the whole extraction resolves). -/
def extractAndMatchTiming (ocrDur netDur : ℚ) : ℚ × ℚ :=
  (min ocrDur 30, min ocrDur 30 + min netDur 20)

/-- Non-Amazon URL used in the arbitration scenarios. -/
def plainUrl : List Char := "https://example.com/item".data

/-- Amazon URL used in the arbitration scenarios. -/
def amazonUrl : List Char := "https://www.amazon.com/dp/X1".data

/-- The two example URLs classify as intended. -/
theorem isAmazonDomain_examples :
    isAmazonDomain plainUrl = false ∧ isAmazonDomain amazonUrl = true := by
  decide

/-- Mismatching dual-success result: network $200 at confidence 0.6, vision
$340 at confidence 0.6 (spec scenario 3's mismatch shape with equal
confidences, so neither margin rule applies). -/
def mismatchResult : PriceMatchResult :=
  { NetworkPrice := 200, NetworkSuccess := true, NetworkSource := "json_api",
    NetworkConfidence := 0.6, OCRPrice := 340, OCRSuccess := true,
    OCRConfidence := 0.6, PricesMatch := pricesMatch 200 340 }

/-- $200 and $340 do not match: the average 270 exceeds 100, so the
tolerance is 3, and the percentage difference is 1400/27 ≈ 51.9. -/
theorem mismatchResult_prices_mismatch : pricesMatch 200 340 = false := by
  norm_num [pricesMatch]

/-- C3 counterexample: on a non-marketplace domain with both methods
succeeding, values mismatching, and neither confidence-margin rule applying
(equal confidences 0.6), the code returns the vision price $340 — the
domain's PRIMARY method — not the network price $200 that the claim's
"non-primary default" predicts. -/
theorem determineFinalResult_mismatch_default_counterexample :
    Option.map (fun pd => pd.CurrentPrice) (determineFinalResult mismatchResult plainUrl)
      = some 340 ∧ (340 : ℚ) ≠ 200 := by
  have hmm := mismatchResult_prices_mismatch
  have hA : isAmazonDomain plainUrl = false := isAmazonDomain_examples.1
  refine ⟨?_, by norm_num⟩
  norm_num [determineFinalResult, mismatchResult, hA, hmm]

/-- C3 amended: in the mismatch branch, when neither confidence-margin rule
applies, `determineFinalResult` defaults to the domain's PRIMARY method:
vision (YOLO+OCR) on a non-Amazon domain, network on an Amazon domain. -/
theorem determineFinalResult_mismatch_defaults_to_primary
    (m : PriceMatchResult) (url : List Char)
    (hn : m.NetworkSuccess = true) (ho : m.OCRSuccess = true)
    (hmm : m.PricesMatch = false)
    (hocr7 : ¬ m.OCRConfidence > 0.7) :
    (isAmazonDomain url = false →
      ¬ m.OCRConfidence > m.NetworkConfidence + 0.05 →
      ¬ m.NetworkConfidence > m.OCRConfidence + 0.1 →
      Option.map (fun pd => pd.CurrentPrice) (determineFinalResult m url)
        = some m.OCRPrice) ∧
    (isAmazonDomain url = true →
      ¬ m.NetworkConfidence > 0.5 →
      ¬ m.OCRConfidence > m.NetworkConfidence + 0.15 →
      Option.map (fun pd => pd.CurrentPrice) (determineFinalResult m url)
        = some m.NetworkPrice) := by
  constructor
  · intro hA h1 h2
    simp [determineFinalResult, hA, hn, ho, hmm, hocr7, h1, h2]
  · intro hA h1 h2
    simp [determineFinalResult, hA, hn, ho, hmm, hocr7, h1, h2]

/-- Witness for the amended C3 theorem at the concrete mismatch input. -/
theorem determineFinalResult_mismatch_defaults_to_primary_witness :
    Option.map (fun pd => pd.CurrentPrice) (determineFinalResult mismatchResult plainUrl)
      = some 340 := by
  have h := determineFinalResult_mismatch_defaults_to_primary mismatchResult plainUrl
    rfl rfl mismatchResult_prices_mismatch (by norm_num [mismatchResult])
  have h1 := h.1 isAmazonDomain_examples.1 (by norm_num [mismatchResult])
    (by norm_num [mismatchResult])
  simpa [mismatchResult] using h1

/-- C4 counterexample: at prices $98 and $102 the average is exactly $100
and the percentage difference is exactly 4%; the code accepts the pair as a
match (threshold 5 because `avgPrice > 100` is false at 100), while the
claim's "3% at or above $100" predicts rejection (4 > 3). -/
theorem pricesMatch_boundary_counterexample :
    pricesMatch 98 102 = true ∧
    ((98 : ℚ) + 102) / 2 = 100 ∧
    |(98 : ℚ) - 102| / (((98 : ℚ) + 102) / 2) * 100 = 4 ∧
    ¬ ((4 : ℚ) ≤ 3) := by
  norm_num [pricesMatch]

/-- C4 amended: two positive prices match exactly when the percentage
difference relative to their average is within the tolerance, which is 5%
for averages at or BELOW $100 and 3% strictly above $100. -/
theorem pricesMatch_tolerance (p1 p2 : ℚ) (h1 : 0 < p1) (h2 : 0 < p2) :
    pricesMatch p1 p2 = true ↔
      |p1 - p2| / ((p1 + p2) / 2) * 100 ≤ (if 100 < (p1 + p2) / 2 then 3 else 5) := by
  have hg : ¬ (p1 ≤ 0 ∨ p2 ≤ 0) := by
    push_neg
    exact ⟨h1, h2⟩
  simp only [pricesMatch, if_neg hg, decide_eq_true_eq, gt_iff_lt]

/-- Witness for the amended C4 theorem: scenario 1's $49.99 vs $49.95 pair
(average below $100, 0.08% difference, tolerance 5) is a match. -/
theorem pricesMatch_tolerance_witness :
    pricesMatch 49.99 49.95 = true := by
  rw [pricesMatch_tolerance 49.99 49.95 (by norm_num) (by norm_num)]
  norm_num [abs_of_nonneg]

/-- C6: whenever exactly one of the two methods succeeded (with a positive
value), the final value is the succeeding method's value, on Amazon and
non-Amazon domains alike and for any confidences. -/
theorem determineFinalResult_single_method (m : PriceMatchResult) (url : List Char)
    (hx : m.NetworkSuccess ≠ m.OCRSuccess)
    (hnp : m.NetworkSuccess = true → 0 < m.NetworkPrice)
    (hop : m.OCRSuccess = true → 0 < m.OCRPrice) :
    Option.map (fun pd => pd.CurrentPrice) (determineFinalResult m url)
      = some (if m.NetworkSuccess = true then m.NetworkPrice else m.OCRPrice) := by
  rcases hN : m.NetworkSuccess <;> rcases hO : m.OCRSuccess <;>
    rw [hN, hO] at hx <;> try exact absurd rfl hx
  · -- only vision succeeded
    by_cases hA : isAmazonDomain url = true <;>
      by_cases hc : m.OCRConfidence > 0.7 <;>
        simp [determineFinalResult, hA, hN, hO, hc]
  · -- only network succeeded
    by_cases hA : isAmazonDomain url = true <;>
      by_cases hc : m.NetworkConfidence > 0.5 <;>
        simp [determineFinalResult, hA, hN, hO, hc]

/-- Scenario 2's input: network timed out, vision returned $120 at
confidence 0.75. -/
def visionOnlyResult : PriceMatchResult :=
  { NetworkPrice := 0, NetworkSuccess := false, NetworkSource := "",
    NetworkConfidence := 0, OCRPrice := 120, OCRSuccess := true,
    OCRConfidence := 0.75, PricesMatch := false }

/-- Witness for C6 at scenario 2: the outcome is the vision value $120. -/
theorem determineFinalResult_single_method_witness :
    Option.map (fun pd => pd.CurrentPrice) (determineFinalResult visionOnlyResult plainUrl)
      = some 120 := by
  have h := determineFinalResult_single_method visionOnlyResult plainUrl
    (by simp [visionOnlyResult]) (by simp [visionOnlyResult])
    (by intro h; norm_num [visionOnlyResult])
  simpa [visionOnlyResult] using h

/-- C5 counterexample: in the timing model of `extractAndMatchPrices`, the
network branch's start instant does depend on the vision branch's duration —
a vision branch that blocks until its 30-second timeout delays the network
branch's start from 0 to 30 seconds, refuting "a slow service in one branch
never delays the start of the other". -/
theorem extractAndMatchTiming_vision_delays_network :
    (extractAndMatchTiming 30 5).1 = 30 ∧
    (extractAndMatchTiming 0 5).1 = 0 ∧
    (30 : ℚ) ≠ 0 := by
  refine ⟨?_, ?_, by norm_num⟩ <;> simp [extractAndMatchTiming]

/-- C5 amended: the two extractors run sequentially — the network branch
starts exactly when the vision branch resolves, namely min(visionDur, 30s)
(so a blocked vision service delays network by up to its full 30-second
timeout) — and with each branch bounded by its own timeout (30s vision,
20s network) the whole extraction resolves within 50 seconds. -/
theorem extractAndMatchTiming_sequential (o n : ℚ) (ho : 0 ≤ o) (hn : 0 ≤ n) :
    (extractAndMatchTiming o n).1 = min o 30 ∧
    (o ≤ 30 → (extractAndMatchTiming o n).1 = o) ∧
    (extractAndMatchTiming o n).2 ≤ 50 := by
  refine ⟨rfl, fun h => by simp [extractAndMatchTiming, min_eq_left h], ?_⟩
  have h1 : min o 30 ≤ 30 := min_le_right o 30
  have h2 : min n 20 ≤ 20 := min_le_right n 20
  calc (extractAndMatchTiming o n).2 = min o 30 + min n 20 := rfl
    _ ≤ 30 + 20 := add_le_add h1 h2
    _ = 50 := by norm_num

/-- Witness for the amended C5 theorem at a blocked vision branch. -/
theorem extractAndMatchTiming_sequential_witness :
    (extractAndMatchTiming 30 5).1 = min 30 30 ∧
    ((30 : ℚ) ≤ 30 → (extractAndMatchTiming 30 5).1 = 30) ∧
    (extractAndMatchTiming 30 5).2 ≤ 50 :=
  extractAndMatchTiming_sequential 30 5 (by norm_num) (by norm_num)

/-! ## Preference store (handlers SubmitPriceFeedback +
repository PreferenceRepository.SavePreference) -/

/-- A row of the `scraping_preferences` table (the columns the feedback path
touches; timestamps omitted). -/
structure PrefRow where
  method : String
  confidence : ℚ
  successRate : ℚ
deriving DecidableEq

/-- In-memory `models.ScrapingPreference` as used by the handler. -/
structure ScrapingPreference where
  method : String
  confidence : ℚ
  successRate : ℚ
deriving DecidableEq

/-- `PreferenceRepository.SavePreference urlID method confidence`: the
INSERT writes `(method, confidence, success_rate := 1.0)`, and the
`ON CONFLICT ... DO UPDATE` sets only `method`, `confidence`, `last_used`,
`updated_at` — it does NOT touch `success_rate`. -/
def savePreference (existing : Option PrefRow) (method : String) (confidence : ℚ) :
    PrefRow :=
  match existing with
  | none => { method := method, confidence := confidence, successRate := 1 }
  | some row => { method := method, confidence := confidence,
                  successRate := row.successRate }

/-- The complementary-method choice of `SubmitPriceFeedback`: methods whose
name contains "yolo" or "ocr" switch to "network", all others to "yolo_ocr". -/
def feedbackAlternativeMethod (m : String) : String :=
  if hasSub m.data "yolo".data || hasSub m.data "ocr".data then "network"
  else "yolo_ocr"

/-- `Handlers.SubmitPriceFeedback`, as a function from the existing stored
row (`none` models the repository reporting no usable preference, for which
the handler builds the default `hybrid`/0.5 preference) and the two feedback
flags to the row that ends up persisted.  The handler updates the in-memory
preference and then calls
`SavePreference(pref.URLID, pref.Method, pref.SuccessRate)` — passing the
updated success rate as the repository's `confidence` argument. -/
def submitPriceFeedback (existing : Option PrefRow)
    (primaryCorrect alternativeCorrect : Bool) : PrefRow :=
  let pref0 : ScrapingPreference :=
    match existing with
    | some r => { method := r.method, confidence := r.confidence,
                  successRate := r.successRate }
    | none => { method := "hybrid", confidence := 0.5, successRate := 0.5 }
  let pref1 : ScrapingPreference :=
    if primaryCorrect then
      { pref0 with successRate := min 1 (pref0.successRate + 0.1) }
    else if alternativeCorrect then
      { pref0 with method := feedbackAlternativeMethod pref0.method,
                   successRate := min 1 (pref0.successRate + 0.1) }
    else
      { pref0 with successRate := max 0 (pref0.successRate - 0.1) }
  savePreference existing pref1.method pref1.successRate

/-- The C7 failing input: a target currently preferring `network` with
stored success rate 0.5 (and stored confidence 0.7). -/
def networkPrefRow : PrefRow :=
  { method := "network", confidence := 0.7, successRate := 0.5 }

/-- C7: feedback confirming the alternative result for a target preferring
`network` does switch the persisted method to `yolo_ocr`, and the handler
computes the reinforced rate min(1, 0.5+0.1) = 0.6 — but the row that ends
up persisted still has `success_rate = 0.5`: the updated rate is written
into the `confidence` column instead, because `SavePreference`'s
ON CONFLICT clause never updates `success_rate` and the handler passes the
rate as the `confidence` argument. -/
theorem submitPriceFeedback_rate_not_persisted :
    (submitPriceFeedback (some networkPrefRow) false true).method = "yolo_ocr" ∧
    min 1 (networkPrefRow.successRate + 0.1) = 0.6 ∧
    (submitPriceFeedback (some networkPrefRow) false true).successRate = 0.5 ∧
    (submitPriceFeedback (some networkPrefRow) false true).confidence = 0.6 ∧
    (0.5 : ℚ) ≠ 0.6 := by
  have hswitch : feedbackAlternativeMethod "network" = "yolo_ocr" := by
    have : hasSub "network".data "yolo".data = false := by decide
    have h2 : hasSub "network".data "ocr".data = false := by decide
    simp [feedbackAlternativeMethod, this, h2]
  have hmin : min (1 : ℚ) (0.5 + 0.1) = 0.6 := by
    rw [min_eq_right]
    · norm_num
    · norm_num
  refine ⟨?_, ?_, ?_, ?_, by norm_num⟩ <;>
    simp [submitPriceFeedback, savePreference, networkPrefRow, hswitch, hmin]

/-! ## Vision ensemble — selectBestOCRResult (docker OCR extractor) -/

/-- Embedding of `OCRAttempt` (one text-recognition attempt of the ensemble). -/
structure OCRAttempt where
  Strategy : String
  ExpansionFactor : ℚ
  Price : ℚ
  Text : String
  Confidence : ℚ
  Success : Bool
deriving DecidableEq, Inhabited

/-- Embedding of `OCRResult` (the selected attempt; the `AllAttempts`
diagnostics list is carried by the caller and omitted here). -/
structure OCRResult where
  Price : ℚ
  Text : String
  Confidence : ℚ
  Strategy : String
deriving DecidableEq

/-- The score `selectBestOCRResult` assigns an attempt: recognizer
confidence, times 1.2 unless the strategy label contains "full_image"
(region-scoped bonus), times 1.1 when the expansion factor lies in the
sweet spot [1.5, 2.5]. -/
def ocrAttemptScore (a : OCRAttempt) : ℚ :=
  let score := a.Confidence
  let score := if hasSub a.Strategy.data "full_image".data then score else score * 1.2
  if 1.5 ≤ a.ExpansionFactor ∧ a.ExpansionFactor ≤ 2.5 then score * 1.1 else score

/-- The loop body of `selectBestOCRResult`: skip unsuccessful or
non-positive-price attempts, otherwise keep the attempt iff its score
strictly exceeds the best so far. -/
def selectBestStep (acc : ℚ × OCRAttempt) (a : OCRAttempt) : ℚ × OCRAttempt :=
  if a.Success = true ∧ 0 < a.Price then
    if acc.1 < ocrAttemptScore a then (ocrAttemptScore a, a) else acc
  else acc

/-- `EnhancedOCRExtractor.selectBestOCRResult`: fold the loop body over the
attempts starting from best score 0 and the zero-valued attempt; if the best
score stayed 0 return the `no_successful_attempts` sentinel, else the fields
of the best attempt. -/
def selectBestOCRResult (attempts : List OCRAttempt) : OCRResult :=
  let best := attempts.foldl selectBestStep (0, default)
  if best.1 = 0 then
    { Price := 0, Text := "", Confidence := 0, Strategy := "no_successful_attempts" }
  else
    { Price := best.2.Price, Text := best.2.Text, Confidence := best.2.Confidence,
      Strategy := best.2.Strategy }

/-- Folding the loop body changes nothing when no attempt in the list can
improve on the accumulator. -/
theorem selectBest_fold_const (l : List OCRAttempt) (acc : ℚ × OCRAttempt)
    (h : ∀ b ∈ l, b.Success = true → 0 < b.Price → ¬ acc.1 < ocrAttemptScore b) :
    l.foldl selectBestStep acc = acc := by
  induction l with
  | nil => rfl
  | cons b rest ih =>
    have hstep : selectBestStep acc b = acc := by
      unfold selectBestStep
      by_cases hv : b.Success = true ∧ 0 < b.Price
      · rw [if_pos hv, if_neg (h b (List.mem_cons_self b rest) hv.1 hv.2)]
      · rw [if_neg hv]
    rw [List.foldl_cons, hstep]
    exact ih fun c hc => h c (List.mem_cons_of_mem b hc)

/-- Folding the loop body over a list containing a strict-maximum valid
attempt `a` that improves on the accumulator yields `a`. -/
theorem selectBest_fold_max (l : List OCRAttempt) (a : OCRAttempt)
    (ha : a ∈ l) (hs : a.Success = true) (hp : 0 < a.Price) :
    ∀ acc : ℚ × OCRAttempt, acc.1 < ocrAttemptScore a →
    (∀ b ∈ l, b.Success = true → 0 < b.Price →
      b = a ∨ ocrAttemptScore b < ocrAttemptScore a) →
    l.foldl selectBestStep acc = (ocrAttemptScore a, a) := by
  induction l with
  | nil => exact absurd ha (List.not_mem_nil a)
  | cons b rest ih =>
    intro acc hacc hmax
    by_cases hb : b = a
    · subst hb
      have hstep : selectBestStep acc b = (ocrAttemptScore b, b) := by
        unfold selectBestStep
        rw [if_pos ⟨hs, hp⟩, if_pos hacc]
      rw [List.foldl_cons, hstep]
      refine selectBest_fold_const rest _ fun c hc hcs hcp => ?_
      rcases hmax c (List.mem_cons_of_mem b hc) hcs hcp with hceq | hclt
      · subst hceq
        exact lt_irrefl _
      · exact not_lt_of_gt hclt
    · have ha' : a ∈ rest := by
        rcases List.mem_cons.1 ha with h' | h'
        · exact absurd h'.symm hb
        · exact h'
      have hmax' : ∀ c ∈ rest, c.Success = true → 0 < c.Price →
          c = a ∨ ocrAttemptScore c < ocrAttemptScore a :=
        fun c hc => hmax c (List.mem_cons_of_mem b hc)
      rw [List.foldl_cons]
      by_cases hv : b.Success = true ∧ 0 < b.Price
      · have hblt : ocrAttemptScore b < ocrAttemptScore a := by
          rcases hmax b (List.mem_cons_self b rest) hv.1 hv.2 with h' | h'
          · exact absurd h' hb
          · exact h'
        have hstep : selectBestStep acc b =
            (if acc.1 < ocrAttemptScore b then (ocrAttemptScore b, b) else acc) := by
          unfold selectBestStep
          rw [if_pos hv]
        rw [hstep]
        by_cases hlt : acc.1 < ocrAttemptScore b
        · rw [if_pos hlt]
          exact ih ha' (ocrAttemptScore b, b) hblt hmax'
        · rw [if_neg hlt]
          exact ih ha' acc hacc hmax'
      · have hstep : selectBestStep acc b = acc := by
          unfold selectBestStep
          rw [if_neg hv]
        rw [hstep]
        exact ih ha' acc hacc hmax'

/-- C9: among the attempts that succeeded with a positive parsed value, the
attempt whose score (confidence, times the region-scoped bonus 1.2, times
the sweet-spot bonus 1.1) is strictly highest — and positive — is the one
`selectBestOCRResult` returns (its price, text, confidence and strategy). -/
theorem selectBestOCRResult_picks_highest_score (attempts : List OCRAttempt)
    (a : OCRAttempt) (ha : a ∈ attempts) (hs : a.Success = true) (hp : 0 < a.Price)
    (hpos : 0 < ocrAttemptScore a)
    (hmax : ∀ b ∈ attempts, b.Success = true → 0 < b.Price →
      b = a ∨ ocrAttemptScore b < ocrAttemptScore a) :
    selectBestOCRResult attempts =
      { Price := a.Price, Text := a.Text, Confidence := a.Confidence,
        Strategy := a.Strategy } := by
  unfold selectBestOCRResult
  rw [selectBest_fold_max attempts a ha hs hp (0, default) hpos hmax]
  rw [if_neg (ne_of_gt hpos)]

/-- A region-scoped attempt in the sweet-spot expansion range. -/
def ocrRegionAttempt : OCRAttempt :=
  { Strategy := "expansion_2.0x", ExpansionFactor := 2, Price := 59.99,
    Text := "$59.99", Confidence := 0.85, Success := true }

/-- A full-image fallback attempt with higher raw confidence. -/
def ocrFullImageAttempt : OCRAttempt :=
  { Strategy := "full_image", ExpansionFactor := 0, Price := 59.99,
    Text := "$59.99", Confidence := 0.9, Success := true }

/-- A failed attempt (skipped by the selection loop). -/
def ocrFailedAttempt : OCRAttempt :=
  { Strategy := "preprocessing_contrast", ExpansionFactor := 1, Price := 0,
    Text := "", Confidence := 0.95, Success := false }

/-- Witness for C9: the region-scoped sweet-spot attempt (score
0.85·1.2·1.1 = 1.122) beats the higher-confidence full-image attempt
(score 0.9) and is returned. -/
theorem selectBestOCRResult_picks_highest_score_witness :
    selectBestOCRResult [ocrFullImageAttempt, ocrRegionAttempt, ocrFailedAttempt] =
      { Price := 59.99, Text := "$59.99", Confidence := 0.85,
        Strategy := "expansion_2.0x" } := by
  have hfull : hasSub ("full_image").data ("full_image").data = true := by decide
  have hreg : hasSub ("expansion_2.0x").data ("full_image").data = false := by decide
  have hsr : ocrAttemptScore ocrRegionAttempt = 1.122 := by
    norm_num [ocrAttemptScore, ocrRegionAttempt, hreg]
  have hsf : ocrAttemptScore ocrFullImageAttempt = 0.9 := by
    norm_num [ocrAttemptScore, ocrFullImageAttempt, hfull]
  have hmax : ∀ b ∈ [ocrFullImageAttempt, ocrRegionAttempt, ocrFailedAttempt],
      b.Success = true → 0 < b.Price →
      b = ocrRegionAttempt ∨ ocrAttemptScore b < ocrAttemptScore ocrRegionAttempt := by
    intro b hb hbs hbp
    simp only [List.mem_cons, List.not_mem_nil, or_false] at hb
    rcases hb with rfl | rfl | rfl
    · right
      rw [hsf, hsr]
      norm_num
    · left
      rfl
    · simp [ocrFailedAttempt] at hbs
  have h := selectBestOCRResult_picks_highest_score
    [ocrFullImageAttempt, ocrRegionAttempt, ocrFailedAttempt] ocrRegionAttempt
    (by simp) rfl (by norm_num [ocrRegionAttempt]) (by rw [hsr]; norm_num) hmax
  simpa [ocrRegionAttempt] using h

/-! ## Locale parser (`LocaleParser.ParsePrice`)

The four regexes of `NewLocaleParser` are embedded as deterministic
matchers.  In each pattern every sub-expression after the leading digit run
is optional, so Go's leftmost-first (Perl-like) matching never needs to
backtrack: the match at a position is "optional currency symbol, `\s*`,
greedily 1–3 digits, greedily as many separator-triples as fit, optionally a
separator plus two digits", and the leftmost position at which this
succeeds wins.  Numeric values are first produced as an
(integer, fraction, fraction-length) triple so that the whole match/clean
step is computable over characters and naturals, and converted to `ℚ` last
(`strconv.ParseFloat` on the cleaned string). -/

/-- `[0-9]` of the patterns. -/
def isDigitCh (c : Char) : Bool := '0' ≤ c && c ≤ '9'

/-- `\s` of Go regexes: `[\t\n\f\r ]`. -/
def isSpaceCh (c : Char) : Bool :=
  c == ' ' || c == '\t' || c == '\n' || c == '\r' || c == Char.ofNat 12

/-- The currency-symbol class `(\$|£|€)` shared by the patterns. -/
def isCurrencySym (c : Char) : Bool := c == '$' || c == '£' || c == '€'

/-- Greedily split off the leading digit run. -/
def spanDigits : List Char → List Char × List Char
  | [] => ([], [])
  | c :: rest =>
    if isDigitCh c then
      let (ds, r) := spanDigits rest
      (c :: ds, r)
    else ([], c :: rest)

/-- Decimal value of a digit run. -/
def digitsToNat (ds : List Char) : ℕ :=
  ds.foldl (fun n c => 10 * n + (c.toNat - 48)) 0

/-- Greedy `(?:,[0-9]{3})*` of the `us_uk` pattern: raw matched characters
plus the remainder. -/
def usUkGroups : List Char → List Char × List Char
  | ',' :: a :: b :: c :: rest =>
    if isDigitCh a && isDigitCh b && isDigitCh c then
      let (gs, r) := usUkGroups rest
      (',' :: a :: b :: c :: gs, r)
    else ([], ',' :: a :: b :: c :: rest)
  | l => ([], l)

/-- Greedy `(?:\.[0-9]{2})?` of the `us_uk` pattern. -/
def usUkDecimal : List Char → List Char × List Char
  | '.' :: a :: b :: rest =>
    if isDigitCh a && isDigitCh b then (['.', a, b], rest)
    else ([], '.' :: a :: b :: rest)
  | l => ([], l)

/-- Greedy `(?:[.\s][0-9]{3})*` of the `european` pattern. -/
def euroGroups : List Char → List Char × List Char
  | s :: a :: b :: c :: rest =>
    if (s == '.' || isSpaceCh s) && isDigitCh a && isDigitCh b && isDigitCh c then
      let (gs, r) := euroGroups rest
      (s :: a :: b :: c :: gs, r)
    else ([], s :: a :: b :: c :: rest)
  | l => ([], l)

/-- Greedy `(?:,[0-9]{2})?` of the `european` pattern. -/
def euroDecimal : List Char → List Char × List Char
  | ',' :: a :: b :: rest =>
    if isDigitCh a && isDigitCh b then ([',', a, b], rest)
    else ([], ',' :: a :: b :: rest)
  | l => ([], l)

/-- Greedy `(?:[.,][0-9]{2})?` of the `simple` pattern. -/
def simpleDecimal : List Char → List Char × List Char
  | s :: a :: b :: rest =>
    if (s == '.' || s == ',') && isDigitCh a && isDigitCh b then ([s, a, b], rest)
    else ([], s :: a :: b :: rest)
  | l => ([], l)

/-- Match of the `us_uk` pattern
`(?i)(\$|£|€)?\s*([0-9]{1,3}(?:,[0-9]{3})*(?:\.[0-9]{2})?)` at a position:
returns the symbol capture and the number capture. -/
def usUkAt (s : List Char) : Option (Option Char × List Char) :=
  let (sym, s1) : Option Char × List Char :=
    match s with
    | c :: rest => if isCurrencySym c then (some c, rest) else (none, s)
    | [] => (none, [])
  let s2 := s1.dropWhile isSpaceCh
  let (run, rest0) := spanDigits s2
  if run.isEmpty then none
  else
    let ds := run.take 3
    let rest1 := run.drop 3 ++ rest0
    let (gs, rest2) := usUkGroups rest1
    let (dec, _) := usUkDecimal rest2
    some (sym, ds ++ gs ++ dec)

/-- Match of the `european` pattern
`(?i)(\$|£|€)?\s*([0-9]{1,3}(?:[.\s][0-9]{3})*(?:,[0-9]{2})?)` at a position. -/
def euroAt (s : List Char) : Option (Option Char × List Char) :=
  let (sym, s1) : Option Char × List Char :=
    match s with
    | c :: rest => if isCurrencySym c then (some c, rest) else (none, s)
    | [] => (none, [])
  let s2 := s1.dropWhile isSpaceCh
  let (run, rest0) := spanDigits s2
  if run.isEmpty then none
  else
    let ds := run.take 3
    let rest1 := run.drop 3 ++ rest0
    let (gs, rest2) := euroGroups rest1
    let (dec, _) := euroDecimal rest2
    some (sym, ds ++ gs ++ dec)

/-- Match of the `currency_only` pattern
`(?i)(\$|£|€)\s*([0-9]+(?:\.[0-9]{2})?)` at a position (symbol required). -/
def currencyOnlyAt (s : List Char) : Option (Option Char × List Char) :=
  match s with
  | c :: rest =>
    if isCurrencySym c then
      let s2 := rest.dropWhile isSpaceCh
      let (run, rest0) := spanDigits s2
      if run.isEmpty then none
      else
        let (dec, _) := usUkDecimal rest0
        some (some c, run ++ dec)
    else none
  | [] => none

/-- Match of the `simple` pattern `([0-9]+(?:[.,][0-9]{2})?)` at a position.
(This pattern has a single capture group; `ParsePrice` only ever reaches it
on digit-free text, where it cannot match, because `us_uk` matches any text
containing a digit and its cleaned capture always parses.) -/
def simpleAt (s : List Char) : Option (Option Char × List Char) :=
  let (run, rest0) := spanDigits s
  if run.isEmpty then none
  else
    let (dec, _) := simpleDecimal rest0
    some (none, run ++ dec)

/-- Leftmost match: try the matcher at each position, as
`FindStringSubmatch` does. -/
def findMap (f : List Char → Option (Option Char × List Char)) :
    List Char → Option (Option Char × List Char)
  | [] => f []
  | c :: rest =>
    match f (c :: rest) with
    | some r => some r
    | none => findMap f rest

/-- `cleanNumberString` for `us_uk`: remove the commas. -/
def cleanUsUk (s : List Char) : List Char := s.filter (fun c => !(c == ','))

/-- `cleanNumberString` for `european`: delete the dots, then turn commas
into dots (the TEMP-marker dance of the source); embedded spaces survive. -/
def cleanEuro (s : List Char) : List Char :=
  (s.filter (fun c => !(c == '.'))).map (fun c => if c == ',' then '.' else c)

/-- `cleanNumberString` for `simple`: a comma with no dot present becomes
the decimal point. -/
def cleanSimple (s : List Char) : List Char :=
  if s.any (fun c => c == ',') && !(s.any (fun c => c == '.')) then
    s.map (fun c => if c == ',' then '.' else c)
  else s

/-- `strconv.ParseFloat` on the cleaned capture, kept in
(integer, fraction, fraction-length) form: accepts `digits`, `digits.digits`,
`digits.` and `.digits`; anything else (for instance a capture that kept an
embedded space) fails. -/
def parseFloatRep (s : List Char) : Option (ℕ × ℕ × ℕ) :=
  let (intDs, rest) := spanDigits s
  match rest with
  | [] => if intDs.isEmpty then none else some (digitsToNat intDs, 0, 0)
  | '.' :: rest2 =>
    let (fracDs, rest3) := spanDigits rest2
    match rest3 with
    | [] =>
      if intDs.isEmpty && fracDs.isEmpty then none
      else some (digitsToNat intDs, digitsToNat fracDs, fracDs.length)
    | _ => none
  | _ => none

/-- The rational value of a parsed (integer, fraction, fraction-length). -/
def repToRat (r : ℕ × ℕ × ℕ) : ℚ := r.1 + (r.2.1 : ℚ) / 10 ^ r.2.2

/-- Go's `strings.TrimSpace` (ASCII whitespace, which also includes `\v`). -/
def trimSpace (s : List Char) : List Char :=
  ((s.dropWhile fun c => isSpaceCh c || c == Char.ofNat 11).reverse.dropWhile
    fun c => isSpaceCh c || c == Char.ofNat 11).reverse

/-- One iteration of the `ParsePrice` loop: if the pattern matched, clean
the capture and run `ParseFloat`; a parse failure falls through to the next
pattern. -/
def tryPattern (matchRes : Option (Option Char × List Char))
    (clean : List Char → List Char) : Option ((ℕ × ℕ × ℕ) × List Char) :=
  matchRes.bind fun pr =>
    (parseFloatRep (clean pr.2)).map fun r =>
      (r, match pr.1 with | some c => [c] | none => [])

/-- `LocaleParser.ParsePrice` up to the final float conversion: trim, then
try `us_uk`, `european`, `currency_only`, `simple` in order, returning the
first pattern whose cleaned capture parses, with its currency capture
(`strings.ToUpper` is the identity on the symbol characters). -/
def parsePriceRep (text : List Char) : Option ((ℕ × ℕ × ℕ) × List Char) :=
  let t := trimSpace text
  (tryPattern (findMap usUkAt t) cleanUsUk).orElse fun _ =>
  (tryPattern (findMap euroAt t) cleanEuro).orElse fun _ =>
  (tryPattern (findMap currencyOnlyAt t) (fun n => n)).orElse fun _ =>
  tryPattern (findMap simpleAt t) cleanSimple

/-- `LocaleParser.ParsePrice`: the parsed value and currency, `none` for the
"no valid price pattern found" error. -/
def parsePrice (text : List Char) : Option (ℚ × List Char) :=
  (parsePriceRep text).map fun vr => (repToRat vr.1, vr.2)

/-- Sanity: the US/UK grouped, bare symbol and plain small-decimal formats
round-trip through `ParsePrice`. -/
theorem parsePrice_usuk_formats_ok :
    parsePriceRep ("$1,234.56").data = some ((1234, 56, 2), ['$']) ∧
    parsePriceRep ("$123.45").data = some ((123, 45, 2), ['$']) ∧
    parsePriceRep ("15.99").data = some ((15, 99, 2), []) := by
  decide

/-- C8: the round trip fails on the European grouped format and on plain
decimals with four or more integer digits.  `us_uk` is tried first and its
trailing parts are optional, so on `€1.234,56` it matches the prefix
`€1.23` (value 1.23, not 1234.56), and on `1234.56` it matches the prefix
`123` (value 123).  The dedicated `european` pattern, documented as parsing
`€1.234,56`, is unreachable for such inputs. -/
theorem parsePrice_european_shadowed :
    parsePrice ("€1.234,56").data = some (1.23, ['€']) ∧
    parsePrice ("1234.56").data = some (123, ([] : List Char)) ∧
    ((1.23 : ℚ) ≠ 1234.56) ∧ ((123 : ℚ) ≠ 1234.56) := by
  have h1 : parsePriceRep ("€1.234,56").data = some ((1, 23, 2), ['€']) := by decide
  have h2 : parsePriceRep ("1234.56").data = some ((123, 0, 0), []) := by decide
  refine ⟨?_, ?_, by norm_num, by norm_num⟩
  · rw [parsePrice, h1]
    norm_num [repToRat]
  · rw [parsePrice, h2]
    norm_num [repToRat]

/-! ## DOM extractor — `PriceScraper.extractAllPrices` (price_scraper.go)

The price-token regex
`([SYM])\s*(\d+(?:[.,]\d{2})?) | (\d+(?:[.,]\d{2})?)\s*([SYM]) |
 (\d+(?:[.,]\d{2})?)\s*(?:USD|EUR|...)`
is embedded as a three-branch scanner.  In branches 2 and 3 the optional
`[.,]\d{2}` tail is followed by a mandatory symbol/code, so Go's
leftmost-first matching backtracks over exactly one choice: first try the
greedy tail, then drop it; a shorter digit run can never help because the
continuation would then start on a digit.  The scan is non-overlapping and
resumes after each match.  Only the captured number string is kept: the
loop body reads exactly that capture from whichever branch fired. -/

/-- The currency-symbol class of the price pattern. -/
def isCurrencySymAll (c : Char) : Bool :=
  c == '$' || c == '€' || c == '£' || c == '¥' || c == '₹' || c == '₽' ||
  c == '₩' || c == '₪' || c == '₦' || c == '₨' || c == '₫' || c == '₴' ||
  c == '₸' || c == '₺' || c == '₼' || c == '₾' || c == '₿'

/-- The currency-code alternation of the third branch, in source order. -/
def currencyCodes : List (List Char) :=
  ["USD".data, "EUR".data, "GBP".data, "JPY".data, "INR".data, "RUB".data,
   "KRW".data, "ILS".data, "NGN".data, "PKR".data, "VND".data, "UAH".data,
   "KZT".data, "TRY".data, "AZN".data, "GEL".data]

/-- Consume one currency code at the head, if present. -/
def dropCode (s : List Char) : Option (List Char) :=
  match currencyCodes.find? (fun code => isPre code s) with
  | some code => some (s.drop code.length)
  | none => none

/-- `\d+(?:[.,]\d{2})?` at the head with no continuation constraint:
greedy digits, then the optional separator tail. -/
def numTokenAt (s : List Char) : Option (List Char × List Char) :=
  let (run, rest0) := spanDigits s
  if run.isEmpty then none
  else
    let (dec, rest1) := simpleDecimal rest0
    some (run ++ dec, rest1)

/-- Branch 1: `([SYM])\s*(\d+(?:[.,]\d{2})?)`; returns the number capture
and the remainder after the match. -/
def symThenNum (s : List Char) : Option (List Char × List Char) :=
  match s with
  | c :: rest =>
    if isCurrencySymAll c then numTokenAt (rest.dropWhile isSpaceCh)
    else none
  | [] => none

/-- Branch 2: `(\d+(?:[.,]\d{2})?)\s*([SYM])`; the greedy decimal tail is
kept only when a symbol still follows it. -/
def numThenSym (s : List Char) : Option (List Char × List Char) :=
  let (run, rest0) := spanDigits s
  if run.isEmpty then none
  else
    let (dec, rest1) := simpleDecimal rest0
    let withDec : Option (List Char × List Char) :=
      if dec.isEmpty then none
      else
        match rest1.dropWhile isSpaceCh with
        | c :: r2 => if isCurrencySymAll c then some (run ++ dec, r2) else none
        | [] => none
    match withDec with
    | some res => some res
    | none =>
      match rest0.dropWhile isSpaceCh with
      | c :: r2 => if isCurrencySymAll c then some (run, r2) else none
      | [] => none

/-- Branch 3: `(\d+(?:[.,]\d{2})?)\s*(?:USD|EUR|...)`. -/
def numThenCode (s : List Char) : Option (List Char × List Char) :=
  let (run, rest0) := spanDigits s
  if run.isEmpty then none
  else
    let (dec, rest1) := simpleDecimal rest0
    let withDec : Option (List Char × List Char) :=
      if dec.isEmpty then none
      else
        match dropCode (rest1.dropWhile isSpaceCh) with
        | some r2 => some (run ++ dec, r2)
        | none => none
    match withDec with
    | some res => some res
    | none =>
      match dropCode (rest0.dropWhile isSpaceCh) with
      | some r2 => some (run, r2)
      | none => none

/-- `FindAllStringSubmatch` for the price pattern: leftmost scan, branch
order 1-2-3 at each position, resuming after each match.  The fuel argument
(instantiated with `length + 1`) only bounds the recursion; every step
either consumes the match or advances one character. -/
def priceTokens : ℕ → List Char → List (List Char)
  | 0, _ => []
  | _ + 1, [] => []
  | fuel + 1, c :: rest =>
    match symThenNum (c :: rest) with
    | some (num, r) => num :: priceTokens fuel r
    | none =>
      match numThenSym (c :: rest) with
      | some (num, r) => num :: priceTokens fuel r
      | none =>
        match numThenCode (c :: rest) with
        | some (num, r) => num :: priceTokens fuel r
        | none => priceTokens fuel rest

/-- `FindAllStringSubmatch` for the lenient pattern `(\d+(?:[.,]\d{2})?)`. -/
def lenientTokens : ℕ → List Char → List (List Char)
  | 0, _ => []
  | _ + 1, [] => []
  | fuel + 1, c :: rest =>
    match numTokenAt (c :: rest) with
    | some (num, r) => num :: lenientTokens fuel r
    | none => lenientTokens fuel rest

/-- The separator-normalization block of `extractAllPrices`: with both a
comma and a dot present, a split on the comma into two parts with a short
head and a long tail is treated as a thousands separator, anything else as
European format; a lone comma becomes the decimal point.  (The inner
`strings.Contains(priceStr, ",")` recheck of the source is redundant under
the outer guard and elided.) -/
def normalizeSeparators (priceStr : List Char) : List Char :=
  if priceStr.any (fun c => c == ',') && priceStr.any (fun c => c == '.') then
    match priceStr.splitOn ',' with
    | [p0, p1] =>
      if p0.length ≤ 4 && 3 ≤ p1.length then
        priceStr.filter (fun c => !(c == ','))
      else
        (priceStr.filter (fun c => !(c == '.'))).map
          (fun c => if c == ',' then '.' else c)
    | _ =>
      (priceStr.filter (fun c => !(c == '.'))).map
        (fun c => if c == ',' then '.' else c)
  else if priceStr.any (fun c => c == ',') then
    priceStr.map (fun c => if c == ',' then '.' else c)
  else priceStr

/-- The fee/accessory context words checked for sub-$10 prices. -/
def feeContextWords : List (List Char) :=
  ["shipping".data, "tax".data, "fee".data, "handling".data,
   "processing".data, "cable".data, "adapter".data, "mount".data,
   "stand".data, "bracket".data, "screw".data, "manual".data, "guide".data,
   "driver".data, "software".data, "utility".data, "threshold".data,
   "minimum".data]

/-- The words that enable the lenient fallback scan. -/
def lenientGateWords : List (List Char) :=
  ["price".data, "cost".data, "amount".data, "eur".data, "usd".data,
   "gbp".data]

/-- The main-branch loop body: normalize separators, `ParseFloat`, require a
positive value, then the universal validation — skip years 2020–2030, skip
values below 1.0 or above 1,000,000, and skip sub-$10 values when the whole
text mentions a fee/accessory word. -/
def mainTokenPrice (text : List Char) (tok : List Char) : Option ℚ :=
  match parseFloatRep (normalizeSeparators tok) with
  | none => none
  | some r =>
    let price := repToRat r
    if ¬ 0 < price then none
    else if 2020 ≤ price ∧ price ≤ 2030 then none
    else if price < 1 then none
    else if 1000000 < price then none
    else if price < 10 ∧ (feeContextWords.any fun w => hasSub (lowerStr text) w)
      then none
    else some price

/-- The lenient-branch loop body: comma becomes dot, `ParseFloat`, require
`0 < price < 10000`, then skip years, values above 2000 and values below 20. -/
def lenientTokenPrice (tok : List Char) : Option ℚ :=
  match parseFloatRep (tok.map fun c => if c == ',' then '.' else c) with
  | none => none
  | some r =>
    let price := repToRat r
    if ¬ (0 < price ∧ price < 10000) then none
    else if 2020 ≤ price ∧ price ≤ 2030 then none
    else if 2000 < price then none
    else if price < 20 then none
    else some price

/-- `PriceScraper.extractAllPrices`: the main scan; when it yields nothing
and the text mentions a price-related word, the lenient scan instead. -/
def extractAllPrices (text : List Char) : List ℚ :=
  let mainPrices := (priceTokens (text.length + 1) text).filterMap (mainTokenPrice text)
  if mainPrices.isEmpty ∧ (lenientGateWords.any fun w => hasSub (lowerStr text) w) then
    (lenientTokens (text.length + 1) text).filterMap lenientTokenPrice
  else mainPrices

/-- Every price the main-branch loop body keeps lies in [1, 1000000] and
outside [2020, 2030]. -/
theorem mainTokenPrice_bounds (text tok : List Char) (p : ℚ)
    (h : mainTokenPrice text tok = some p) :
    1 ≤ p ∧ p ≤ 1000000 ∧ ¬ (2020 ≤ p ∧ p ≤ 2030) := by
  unfold mainTokenPrice at h
  rcases hE : parseFloatRep (normalizeSeparators tok) with _ | r <;>
    rw [hE] at h <;> dsimp only at h
  · exact Option.noConfusion h
  · split_ifs at h with h0 hyear hlow hhigh hfee
    all_goals try exact Option.noConfusion h
    have hp : repToRat r = p := Option.some.inj h
    subst hp
    push_neg at hlow hhigh
    exact ⟨hlow, hhigh, hyear⟩

/-- Every price the lenient-branch loop body keeps lies in [20, 2000],
hence in [1, 1000000] and outside [2020, 2030]. -/
theorem lenientTokenPrice_bounds (tok : List Char) (p : ℚ)
    (h : lenientTokenPrice tok = some p) :
    1 ≤ p ∧ p ≤ 1000000 ∧ ¬ (2020 ≤ p ∧ p ≤ 2030) := by
  unfold lenientTokenPrice at h
  rcases hE : parseFloatRep (tok.map fun c => if c == ',' then '.' else c)
      with _ | r <;> rw [hE] at h <;> dsimp only at h
  · exact Option.noConfusion h
  · split_ifs at h with h0 hyear hhigh hlow
    all_goals try exact Option.noConfusion h
    have hp : repToRat r = p := Option.some.inj h
    subst hp
    push_neg at hlow hhigh
    refine ⟨by linarith, by linarith, ?_⟩
    rintro ⟨h1, -⟩
    linarith

/-- C10: every price `extractAllPrices` returns, on any input text, lies in
[1.0, 1000000] and never in the year range [2020, 2030] — sub-$1 tokens and
year-like numbers are dropped on both the main and the lenient branch. -/
theorem extractAllPrices_range (text : List Char) (p : ℚ)
    (hp : p ∈ extractAllPrices text) :
    1 ≤ p ∧ p ≤ 1000000 ∧ ¬ (2020 ≤ p ∧ p ≤ 2030) := by
  unfold extractAllPrices at hp
  dsimp only at hp
  split_ifs at hp
  · rcases List.mem_filterMap.1 hp with ⟨tok, -, htok⟩
    exact lenientTokenPrice_bounds tok p htok
  · rcases List.mem_filterMap.1 hp with ⟨tok, -, htok⟩
    exact mainTokenPrice_bounds text tok p htok

/-- Witness for C10 at the concrete text `$25.00`, whose extraction yields
the single price 25. -/
theorem extractAllPrices_range_witness :
    (25 : ℚ) ∈ extractAllPrices ("$25.00").data ∧
    (1 ≤ (25 : ℚ) ∧ (25 : ℚ) ≤ 1000000 ∧ ¬ (2020 ≤ (25 : ℚ) ∧ (25 : ℚ) ≤ 2030)) := by
  have htok : priceTokens (("$25.00").data.length + 1) ("$25.00").data
      = [("25.00").data] := by decide
  have hnorm : normalizeSeparators ("25.00").data = ("25.00").data := by decide
  have hrep : parseFloatRep ("25.00").data = some (25, 0, 2) := by decide
  have hval : repToRat (25, 0, 2) = 25 := by norm_num [repToRat]
  have hmain : mainTokenPrice ("$25.00").data ("25.00").data = some 25 := by
    unfold mainTokenPrice
    rw [hnorm, hrep]
    dsimp only
    rw [hval]
    norm_num
  have heval : extractAllPrices ("$25.00").data = [25] := by
    unfold extractAllPrices
    dsimp only
    rw [htok]
    simp [hmain]
  have hmem : (25 : ℚ) ∈ extractAllPrices ("$25.00").data := by
    rw [heval]
    exact List.mem_singleton.2 rfl
  exact ⟨hmem, extractAllPrices_range ("$25.00").data 25 hmem⟩
